import Mathlib

/-!
# Talking Animals: quiz, catalog loading and speech fallback

A shallow embedding of `js/app-complete.js`.

* A promise is modelled by the way it settles (`Settled`).
* What the host reports is an explicit input: the outcome of each `fetch`, the
  values of `Math.random()` (fractions in `[0, 1)`), and for each `speak` call
  the answer of the engines.  Every engine request is taken to be answered by
  one of its callbacks.
* The effects a handler requests (toasts, `speak` calls, timers) are collected
  in a log, in order.  DOM rendering is not part of the embedding.
* A handler changes the fields of `AnimalApp` only before its first `await`, so
  each handler is one step on the application.
* The timer callback of `handleAnimalGuess` contains `await` outside an async
  function in its branch for a wrong guess.  That branch is embedded as having
  no behaviour (`fireGuessTimer` gives `none`); everything else is embedded as
  written.
* Arrays are lists.  Where it matters that an array is copied and not written
  (`shuffleArrayIn`), arrays live in a memory and are named by reference.
-/

namespace TalkingAnimals

/-! ## Promises -/

/-- How a promise settles: fulfilled with a value, or rejected with the
`message` of the `Error` it was rejected with. -/
inductive Settled (α : Type) where
  | resolved (value : α)
  | rejected (message : String)
  deriving DecidableEq

/-- JavaScript `a || d` on a possibly-undefined string: `a` when it is truthy
(defined and non-empty), otherwise `d`. -/
def jsOr (a : Option String) (d : String) : String :=
  match a with
  | some s => if s = "" then d else s
  | none => d

/-! ## Animal data -/

/-- Contents of one `animals_data/<id>.json` file, and of one entry of the
embedded table: the two fields the program reads. -/
structure AnimalFile where
  image_url : String
  sound_text : String
  deriving DecidableEq

/-- An animal object as built by `loadAnimalData`: the file fields together with
`id` and `name`. -/
structure Animal where
  id : String
  name : String
  image_url : String
  sound_text : String
  deriving DecidableEq

/-- The embedded table, in insertion order (the order `Object.keys` reports). -/
def FALLBACK_ANIMAL_DATA : List (String × AnimalFile) :=
  [("корова", ⟨"🐄", "муууу"⟩),
   ("собака", ⟨"🐕", "гав-гав"⟩),
   ("кошка", ⟨"🐱", "мяу-мяу"⟩),
   ("петух", ⟨"🐓", "ку-ка-ре-ку"⟩),
   ("курица", ⟨"🐔", "ко-ко-ко"⟩),
   ("свинья", ⟨"🐷", "хрю-хрю"⟩),
   ("овца", ⟨"🐑", "бе-е-е"⟩),
   ("коза", ⟨"🐐", "ме-е-е"⟩),
   ("лошадь", ⟨"🐴", "и-го-го"⟩),
   ("утка", ⟨"🦆", "кря-кря"⟩),
   ("гусь", ⟨"🪿", "га-га-га"⟩),
   ("во рона", ⟨"🐦‍⬛", "кар-кар"⟩),
   ("воробей", ⟨"🐦", "чик-чирик"⟩),
   ("сова", ⟨"🦉", "ух-ух"⟩),
   ("бобр", ⟨"🦫", "хлоп-хлоп"⟩),
   ("голубь", ⟨"🕊️", "гур-гур"⟩),
   ("ли са", ⟨"🦊", "тяв-тяв"⟩),
   ("волк", ⟨"🐺", "ау-у-у"⟩),
   ("медведь", ⟨"🐻", "р-р-р"⟩),
   ("ёжик", ⟨"🦔", "фр-фр"⟩),
   ("белка", ⟨"🐿️", "цок-цок"⟩),
   ("заяц", ⟨"🐰", "прыг-прыг"⟩),
   ("лягушка", ⟨"🐸", "ква-ква"⟩),
   ("лебедь", ⟨"🦢", "кур-лы"⟩),
   ("мышка", ⟨"🐭", "пи-пи"⟩),
   ("кузнечик", ⟨"🦗", "стр-стр"⟩),
   ("пчела", ⟨"🐝", "ж-ж-ж"⟩),
   ("цыплёнок", ⟨"🐤", "пи-пи-пи"⟩),
   ("тюлень", ⟨"🦭", "ар-ар"⟩),
   ("ко мар", ⟨"🦟", "з-з-з"⟩)]

def ANIMAL_IDS : List String :=
  ["корова", "собака", "кошка", "петух", "курица", "свинья", "овца", "коза",
   "лошадь", "утка", "гусь", "во рона", "воробей", "сова", "бобр", "голубь",
   "ли са", "волк", "медведь", "ёжик", "белка", "заяц", "лягушка", "лебедь",
   "мышка", "кузнечик", "пчела", "цыплёнок", "тюлень", "ко мар"]

/-- The outcome of `fetch` followed by `response.json()` for one id: a parsed
file, a response whose `ok` flag is false, or a rejected fetch / parse. -/
inductive FetchOutcome where
  | ok (data : AnimalFile)
  | notOk (statusText : String)
  | failed (message : String)
  deriving DecidableEq

/-- Whether the file for an id was fetched and parsed. -/
def FetchOutcome.isOk : FetchOutcome → Bool
  | .ok _ => true
  | _ => false

/-- The function `capitalizeFirstLetter`: `charAt(0).toUpperCase() + slice(1)`.  The host's
`toUpperCase` is a parameter. -/
def capitalizeFirstLetter (toUpperCase : String → String) (string : String) : String :=
  match string.data with
  | [] => toUpperCase "" ++ ""
  | c :: cs => toUpperCase (String.singleton c) ++ String.mk cs

/-- The function `loadAnimalData`: the file's record when the fetch succeeds,
otherwise the embedded record for the id, otherwise `null`.  The promise always
resolves.  It is called with the ids of `ANIMAL_IDS` only; property names that
the table object inherits are not keys of the model's table. -/
def loadAnimalData (toUpperCase : String → String) (fetch : String → FetchOutcome)
    (id : String) : Settled (Option Animal) :=
  match fetch id with
  | .ok data =>
      .resolved (some ⟨id, capitalizeFirstLetter toUpperCase id, data.image_url, data.sound_text⟩)
  | _ =>
      match FALLBACK_ANIMAL_DATA.lookup id with
      | some fb =>
          .resolved (some ⟨id, capitalizeFirstLetter toUpperCase id, fb.image_url, fb.sound_text⟩)
      | none => .resolved none

/-- The join `Promise.all`: the list of values when every promise resolves, otherwise the
first rejection. -/
def promiseAll {α : Type} : List (Settled α) → Settled (List α)
  | [] => .resolved []
  | .rejected m :: _ => .rejected m
  | .resolved v :: ps =>
      match promiseAll ps with
      | .resolved vs => .resolved (v :: vs)
      | .rejected m => .rejected m

/-- The function `loadAllAnimals`: load every id of `ANIMAL_IDS`, keep the non-null results in
order; if the joined load rejects, build the catalog from the embedded table. -/
def loadAllAnimals (toUpperCase : String → String) (fetch : String → FetchOutcome) :
    Settled (List Animal) :=
  match promiseAll (ANIMAL_IDS.map (loadAnimalData toUpperCase fetch)) with
  | .resolved animalsData => .resolved (animalsData.filterMap id)
  | .rejected _ =>
      .resolved (FALLBACK_ANIMAL_DATA.map fun entry =>
        ⟨entry.1, capitalizeFirstLetter toUpperCase entry.1, entry.2.image_url, entry.2.sound_text⟩)

/-! ## Random draws and shuffling -/

/-- One value of `Math.random()`: a number in `[0, 1)`, kept as a fraction. -/
structure UnitDraw where
  num : Nat
  den : Nat
  lt_one : num < den

/-- The index `Math.floor(Math.random() * n)` for the draw `r`. -/
def randomBelow (r : UnitDraw) (n : Nat) : Nat :=
  r.num * n / r.den

/-- The swap `[a[i], a[j]] = [a[j], a[i]]`: both reads happen first, then `a[i]` and
`a[j]` are written. -/
def swapAt {α : Type} (a : List α) (i j : Nat) : List α :=
  match a[i]?, a[j]? with
  | some x, some y => (a.set i y).set j x
  | _, _ => a

/-- The loop of `shuffleArray`, entered with loop variable `i`; `k` is the index
of the next unused draw of the stream `random`. -/
def shuffleLoop {α : Type} (random : Nat → UnitDraw) : Nat → Nat → List α → List α
  | 0, _, shuffled => shuffled
  | i + 1, k, shuffled =>
      let j := randomBelow (random k) (i + 1 + 1)
      shuffleLoop random i (k + 1) (swapAt shuffled (i + 1) j)

/-- The function `shuffleArray`: copy the array and run the loop from `length - 1` down to 1,
taking draws `k`, `k + 1`, ... of the stream. -/
def shuffleArray {α : Type} (random : Nat → UnitDraw) (k : Nat) (array : List α) : List α :=
  shuffleLoop random (array.length - 1) k array

/-- The index pairs `(i, j)` the loop of `shuffleArray` swaps, in order, when
entered with loop variable `i` and next draw `k`. -/
def shuffleSwaps (random : Nat → UnitDraw) : Nat → Nat → List (Nat × Nat)
  | 0, _ => []
  | i + 1, k => (i + 1, randomBelow (random k) (i + 1 + 1)) :: shuffleSwaps random i (k + 1)

/-- The loop of `shuffleArray` on a memory of arrays, where an array reference is
a position of the memory: every swap writes the array at `shuffled` in place. -/
def shuffleLoopIn {α : Type} (random : Nat → UnitDraw) (shuffled : Nat) :
    Nat → Nat → List (List α) → List (List α)
  | 0, _, heap => heap
  | i + 1, k, heap =>
      let j := randomBelow (random k) (i + 1 + 1)
      match heap[shuffled]? with
      | some contents =>
          shuffleLoopIn random shuffled i (k + 1) (heap.set shuffled (swapAt contents (i + 1) j))
      | none => heap

/-- The function `shuffleArray` on a memory of arrays: `[...array]` allocates a
new array with the elements of `array`, the loop runs on the new array, and the
new reference is returned together with the memory. -/
def shuffleArrayIn {α : Type} (random : Nat → UnitDraw) (k : Nat) (heap : List (List α))
    (array : Fin heap.length) : List (List α) × Nat :=
  let shuffled := heap.length
  (shuffleLoopIn random shuffled ((heap.get array).length - 1) k (heap ++ [heap.get array]),
    shuffled)

/-! ## Speech -/

/-- Outcome of the promise returned by the plugin's `TTS.speak`: fulfilled, or
rejected with an error whose `message` may be missing. -/
inductive NativeOutcome where
  | completed
  | failed (message : Option String)
  deriving DecidableEq

/-- The event the browser engine reports for an utterance: `onend`, or `onerror`
with the event's `error` field. -/
inductive BrowserOutcome where
  | onend
  | onerror (error : Option String)
  deriving DecidableEq

/-- The speech environment of one `speak` call: which engines exist and what
each reports when asked. -/
structure SpeechHost where
  hasTTS : Bool
  hasSpeechSynthesis : Bool
  native : NativeOutcome
  browser : BrowserOutcome
  deriving DecidableEq

/-- Requests `speak` sends to the engines. -/
inductive EngineCall where
  | ttsSpeak (text locale : String) (ratePercent : Nat)
  | synthCancel
  | synthSpeak (text lang : String)
  deriving DecidableEq

/-- Result of one `speak` call: the engine requests made and how the returned
promise settles. -/
structure SpeakRun where
  calls : List EngineCall
  result : Settled Unit
  deriving DecidableEq

/-- The default of `speak`'s `lang` argument. -/
def defaultLang : String := "ru-RU"

/-- The function `speak(text, lang)`: the native plugin when present, the
browser engine when the plugin is absent or fails. -/
def speak (host : SpeechHost) (text lang : String) : SpeakRun :=
  if !host.hasTTS then
    if host.hasSpeechSynthesis then
      ⟨[.synthCancel, .synthSpeak text lang],
        match host.browser with
        | .onend => .resolved ()
        | .onerror error =>
            if error = some "interrupted" then .resolved ()
            else .rejected (jsOr error "UNKNOWN_TTS_ERROR")⟩
    else
      ⟨[], .rejected "TTS_NOT_SUPPORTED"⟩
  else
    match host.native with
    | .completed => ⟨[.ttsSpeak text lang 75], .resolved ()⟩
    | .failed message =>
        if host.hasSpeechSynthesis then
          ⟨[.ttsSpeak text lang 75, .synthCancel, .synthSpeak text lang],
            match host.browser with
            | .onend => .resolved ()
            | .onerror error => .rejected (jsOr error "FALLBACK_TTS_ERROR")⟩
        else
          ⟨[.ttsSpeak text lang 75], .rejected (jsOr message "CORDOVA_TTS_ERROR")⟩

/-- The object `getTTSInfo` resolves with. -/
structure TTSInfo where
  available : Bool
  plugin : String
  currentLanguage : Option String
  languages : List String
  deriving DecidableEq

/-- Outcome of the expression `TTS.checkLanguage().then(...).catch(...)` in the
executor of `getTTSInfo`: the call returns a promise that is fulfilled with the
language or rejected, or evaluating the expression throws (the plugin object
has no such function, the function throws, or what it returns is not a
promise). -/
inductive LanguageCheck where
  | language (current : String)
  | failed (message : Option String)
  | threw (message : String)
  deriving DecidableEq

/-- Whether `TTS.checkLanguage()` returned a promise. -/
def LanguageCheck.returnsPromise : LanguageCheck → Bool
  | .threw _ => false
  | _ => true

/-- The function `getTTSInfo()`: `hasTTS` says whether the plugin object exists,
`check` is what its language check does.  An exception thrown inside the
executor rejects the promise. -/
def getTTSInfo (hasTTS : Bool) (check : LanguageCheck) : Settled TTSInfo :=
  if !hasTTS then
    .resolved ⟨false, "none", none, []⟩
  else
    match check with
    | .language current => .resolved ⟨true, "cordova", some current, ["ru-RU", "en-US"]⟩
    | .failed _ => .resolved ⟨true, "cordova", none, ["ru-RU", "en-US"]⟩
    | .threw message => .rejected message

/-! ## The application -/

/-- Values of `currentView`. -/
inductive View where
  | levels
  | level1
  | level2
  deriving DecidableEq

/-- Values of `showFeedback` other than `null`. -/
inductive Feedback where
  | correct
  | incorrect
  deriving DecidableEq

/-- The fields of `AnimalApp`. -/
structure AnimalApp where
  currentView : View
  animals : List Animal
  isLoading : Bool
  currentChallengeAnimal : Option Animal
  quizOptions : List Animal
  isGuessing : Bool
  showFeedback : Option Feedback
  deriving DecidableEq

/-- The callback `handleAnimalGuess` hands to `setTimeout`; it closes over
`isCorrect`. -/
structure GuessTimer where
  isCorrect : Bool
  deriving DecidableEq

/-- Effects a handler requests from its surroundings, in order. -/
inductive Effect where
  | toast (title description variant : String)
  | speak (text lang : String)
  | setTimeout (callback : GuessTimer) (delayMs : Nat)
  | toggleFullscreen
  deriving DecidableEq

/-- A handler's outcome: the application after it ran and the effects it
requested. -/
structure Run where
  app : AnimalApp
  effects : List Effect
  deriving DecidableEq

/-- The method `playSoundAndName(animal)`: speak the prompt; a rejection becomes a toast. -/
def playSoundAndName (host : SpeechHost) (animal : Animal) : List Effect :=
  let text := animal.sound_text ++ " " ++ animal.name
  .speak text defaultLang ::
    match (speak host text defaultLang).result with
    | .resolved _ => []
    | .rejected message =>
        let msg := if message = "TTS_NOT_SUPPORTED"
          then "Ваш браузер не поддерживает синтез речи."
          else "Ошибка воспроизведения: " ++ message
        [.toast "Ошибка TTS" msg "destructive"]

/-- The method `selectNewChallenge()`.  Draw 0 of `random` picks the target, the following
draws feed the two shuffles. -/
def selectNewChallenge (host : SpeechHost) (random : Nat → UnitDraw) (app : AnimalApp) : Run :=
  if h : app.animals.length < 4 then
    ⟨app, [.toast "Мало данных" "Недостаточно животных для викторины." "destructive"]⟩
  else
    let randomIndex := randomBelow (random 0) app.animals.length
    have inRange : randomIndex < app.animals.length :=
      Nat.div_lt_of_lt_mul (Nat.mul_lt_mul_of_pos_right (random 0).lt_one (by omega))
    let target := app.animals.get ⟨randomIndex, inRange⟩
    let rest := app.animals.filter fun a => a.id ≠ target.id
    let distractors := (shuffleArray random 1 rest).take 3
    let quizOptions := shuffleArray random (1 + (rest.length - 1)) (target :: distractors)
    ⟨{ app with isGuessing := false, showFeedback := none,
                currentChallengeAnimal := some target, quizOptions := quizOptions },
      playSoundAndName host target⟩

/-- The method `repeatSound()`: replay the prompt of the current target unless
guessing is locked. -/
def repeatSound (host : SpeechHost) (app : AnimalApp) : List Effect :=
  match app.currentChallengeAnimal with
  | some target => if !app.isGuessing then playSoundAndName host target else []
  | none => []

/-- The method `handleAnimalGuess(guessedAnimal)`: ignore the guess when there is
no target or guessing is locked, otherwise lock, set the feedback, speak it
and schedule the timer. -/
def handleAnimalGuess (host : SpeechHost) (guessedAnimal : Animal) (app : AnimalApp) : Run :=
  match app.currentChallengeAnimal with
  | none => ⟨app, []⟩
  | some target =>
      if app.isGuessing then ⟨app, []⟩
      else
        let isCorrect : Bool := guessedAnimal.id = target.id
        let feedbackText := if isCorrect then "Молодец!!!" else "Попробуй ещё"
        let app1 := { app with isGuessing := true,
                               showFeedback := some (if isCorrect then .correct else .incorrect) }
        let spoken : List Effect :=
          .speak feedbackText defaultLang ::
            match (speak host feedbackText defaultLang).result with
            | .resolved _ => []
            | .rejected _ => [.toast "Ошибка TTS" "Не удалось воспроизвести звук" "destructive"]
        ⟨app1, spoken ++ [.setTimeout ⟨isCorrect⟩ 1500]⟩

/-- The body of the timer callback of `handleAnimalGuess`, run when the delay
has passed.  After a correct guess it calls `selectNewChallenge`.  The branch
for a wrong guess ends in `await this.repeatSound()` although the callback is
not an async function: that is not a statement of the language, so the branch
has no behaviour to embed and the result is `none`. -/
def fireGuessTimer (host : SpeechHost) (random : Nat → UnitDraw) (timer : GuessTimer)
    (app : AnimalApp) : Option Run :=
  if timer.isCorrect then
    some (selectNewChallenge host random app)
  else
    none

/-- The method `showLevelSelection()`: switch to the selection view and leave
fullscreen when the page is in it (`isFullscreen` is the page's flag). -/
def showLevelSelection (isFullscreen : Bool) (app : AnimalApp) : Run :=
  ⟨{ app with currentView := .levels }, if isFullscreen then [.toggleFullscreen] else []⟩

/-- The method `showLevel2()`: switch to the quiz view and start a challenge. -/
def showLevel2 (host : SpeechHost) (random : Nat → UnitDraw) (app : AnimalApp) : Run :=
  selectNewChallenge host random { app with currentView := .level2 }

/-! ## Sample inputs -/

/-- A catalog of four animals. -/
def sampleCatalog : List Animal :=
  [⟨"корова", "Корова", "🐄", "муууу"⟩, ⟨"собака", "Собака", "🐕", "гав-гав"⟩,
   ⟨"кошка", "Кошка", "🐱", "мяу-мяу"⟩, ⟨"утка", "Утка", "🦆", "кря-кря"⟩]

/-- The application as the constructor leaves it, with `sampleCatalog` loaded and
the quiz view open. -/
def sampleApp : AnimalApp :=
  ⟨.level2, sampleCatalog, false, none, [], false, none⟩

/-- A stream of draws that are all `1/2`. -/
def halfDraws : Nat → UnitDraw := fun _ => ⟨1, 2, by decide⟩

/-- A page with the browser engine only, whose utterances complete. -/
def browserOnlyHost : SpeechHost := ⟨false, true, .completed, .onend⟩

/-- A page without any speech engine. -/
def silentHost : SpeechHost := ⟨false, false, .completed, .onend⟩

/-- A catalog of three animals, too small for the quiz. -/
def smallApp : AnimalApp :=
  ⟨.level2, sampleCatalog.take 3, false, none, [], false, none⟩

/-- The sample application with a challenge in place: target cow, waiting for a
guess. -/
def challengeApp : AnimalApp :=
  ⟨.level2, sampleCatalog, false, some ⟨"корова", "Корова", "🐄", "муууу"⟩,
    sampleCatalog, false, none⟩

/-- The sample application right after a guess was submitted. -/
def lockedApp : AnimalApp :=
  ⟨.level2, sampleCatalog, false, some ⟨"корова", "Корова", "🐄", "муууу"⟩,
    sampleCatalog, true, some .incorrect⟩

/-- The sample application right after the cow was guessed correctly. -/
def praisedApp : AnimalApp :=
  ⟨.level2, sampleCatalog, false, some ⟨"корова", "Корова", "🐄", "муууу"⟩,
    sampleCatalog, true, some .correct⟩

/-- The cow of the sample catalog. -/
def cow : Animal := ⟨"корова", "Корова", "🐄", "муууу"⟩

/-- The dog of the sample catalog. -/
def dog : Animal := ⟨"собака", "Собака", "🐕", "гав-гав"⟩

/-- A network on which every fetch is rejected. -/
def offlineFetch : String → FetchOutcome := fun _ => .failed "Failed to fetch"

/-- Whether loading an id produces a record: its file was read, or the embedded
table has an entry for it. -/
def yieldsRecord (fetch : String → FetchOutcome) (id : String) : Bool :=
  (fetch id).isOk || (FALLBACK_ANIMAL_DATA.lookup id).isSome

/-- A memory holding two arrays of numbers. -/
def sampleHeap : List (List Nat) := [[10, 20, 30, 40], [7]]

/-! ## Shuffling permutes -/

theorem randomBelow_lt (r : UnitDraw) (n : Nat) (hn : 0 < n) : randomBelow r n < n :=
  Nat.div_lt_of_lt_mul (Nat.mul_lt_mul_of_pos_right r.lt_one hn)

theorem swapAt_perm {α : Type} (a : List α) (i j : Nat) : (swapAt a i j).Perm a := by
  classical
  unfold swapAt
  split
  · rename_i x y hx hy
    obtain ⟨hi, hxi⟩ := List.getElem?_eq_some.1 hx
    obtain ⟨hj, hyj⟩ := List.getElem?_eq_some.1 hy
    rw [List.perm_iff_count]
    intro c
    have hjset : j < (a.set i y).length := by simpa using hj
    rw [List.count_set _ _ _ _ hjset, List.count_set _ _ _ _ hi]
    have hxmem : x ∈ a := hxi ▸ List.getElem_mem hi
    have hxc : (if (x == c) = true then 1 else 0) ≤ a.count c := by
      split
      · rename_i hxc
        have : x = c := by simpa using hxc
        subst this
        exact List.count_pos_iff.2 hxmem
      · exact Nat.zero_le _
    by_cases hij : i = j
    · subst hij
      have hxy : x = y := by rw [← hxi, ← hyj]
      subst hxy
      simp only [List.getElem_set_self, hxi]
      omega
    · rw [List.getElem_set_ne hij, hxi, hyj]
      omega
  · exact List.Perm.refl a

theorem shuffleLoop_perm {α : Type} (random : Nat → UnitDraw) (i k : Nat) (a : List α) :
    (shuffleLoop random i k a).Perm a := by
  induction i generalizing k a with
  | zero => exact List.Perm.refl a
  | succ i ih =>
    unfold shuffleLoop
    exact (ih _ _).trans (swapAt_perm a _ _)

theorem shuffleArray_perm {α : Type} (random : Nat → UnitDraw) (k : Nat) (a : List α) :
    (shuffleArray random k a).Perm a :=
  shuffleLoop_perm random _ k a

/-! ## Generating a challenge -/

/-- With at least 4 animals `selectNewChallenge` installs a target taken from the
catalog, options that are a rearrangement of the target followed by the first
three entries of a rearrangement of the other animals, and speaks the prompt. -/
theorem selectNewChallenge_enough (host : SpeechHost) (random : Nat → UnitDraw)
    (app : AnimalApp) (h4 : 4 ≤ app.animals.length) :
    ∃ (target : Animal) (others : List Animal),
      target ∈ app.animals ∧
      others.Perm (app.animals.filter fun a => a.id ≠ target.id) ∧
      (selectNewChallenge host random app).app.quizOptions.Perm (target :: others.take 3) ∧
      (selectNewChallenge host random app).app.currentChallengeAnimal = some target ∧
      (selectNewChallenge host random app).app.isGuessing = false ∧
      (selectNewChallenge host random app).app.showFeedback = none ∧
      (selectNewChallenge host random app).app.animals = app.animals ∧
      (selectNewChallenge host random app).app.currentView = app.currentView ∧
      (selectNewChallenge host random app).effects = playSoundAndName host target := by
  have hlt : ¬ app.animals.length < 4 := by omega
  have hin : randomBelow (random 0) app.animals.length < app.animals.length :=
    randomBelow_lt _ _ (by omega)
  refine ⟨app.animals.get ⟨_, hin⟩, shuffleArray random 1 (app.animals.filter fun a =>
    a.id ≠ (app.animals.get ⟨_, hin⟩).id), List.get_mem _ _ _, shuffleArray_perm _ _ _, ?_⟩
  simp only [selectNewChallenge, hlt, dite_false]
  exact ⟨shuffleArray_perm _ _ _, trivial, trivial, trivial, trivial, trivial, trivial⟩

/-- In a catalog with pairwise distinct ids, removing the animals that share the
target's id removes exactly one animal. -/
theorem length_filter_other_ids (animals : List Animal) (target : Animal)
    (hmem : target ∈ animals) (hid : (animals.map fun a => a.id).Nodup) :
    (animals.filter fun a => a.id ≠ target.id).length + 1 = animals.length := by
  have hsplit := List.length_eq_countP_add_countP (fun a : Animal => decide (a.id ≠ target.id)) animals
  have hone : animals.countP (fun a => ¬ (decide (a.id ≠ target.id)) = true) = 1 := by
    have hc : (animals.map fun a => a.id).count target.id = 1 :=
      List.count_eq_one_of_mem hid (List.mem_map_of_mem _ hmem)
    rw [List.count_eq_countP, List.countP_map] at hc
    rw [← hc]
    apply List.countP_congr
    intro a _
    simp
  rw [List.countP_eq_length_filter] at hsplit
  omega

/-- What a challenge built from a target and the first three of the other
animals looks like, for a catalog of at least 4 animals with distinct ids. -/
theorem options_of_perm (animals others options : List Animal) (target : Animal)
    (h4 : 4 ≤ animals.length) (hid : (animals.map fun a => a.id).Nodup)
    (hmem : target ∈ animals)
    (hperm : others.Perm (animals.filter fun a => a.id ≠ target.id))
    (hq : options.Perm (target :: others.take 3)) :
    options.length = 4 ∧ (options.map fun a => a.id).Nodup ∧ options.count target = 1 ∧
      ∀ a ∈ options, a ≠ target → a ∈ animals ∧ a.id ≠ target.id := by
  have hlen : others.length + 1 = animals.length := by
    rw [hperm.length_eq]
    exact length_filter_other_ids _ _ hmem hid
  have htake : (others.take 3).length = 3 := by
    rw [List.length_take]
    omega
  have hds : ∀ a ∈ others.take 3, a ∈ animals ∧ a.id ≠ target.id := by
    intro a ha
    have hfil := hperm.mem_iff.1 (List.mem_of_mem_take ha)
    rw [List.mem_filter] at hfil
    exact ⟨hfil.1, by simpa using hfil.2⟩
  have hnotin : target ∉ others.take 3 := fun h => (hds target h).2 rfl
  have hnodup : ((target :: others.take 3).map fun a => a.id).Nodup := by
    rw [List.map_cons, List.nodup_cons]
    constructor
    · intro h
      obtain ⟨a, ha, heq⟩ := List.mem_map.1 h
      exact (hds a ha).2 heq
    · have h1 : ((animals.filter fun a => a.id ≠ target.id).map fun a => a.id).Nodup :=
        hid.sublist ((List.filter_sublist _).map _)
      have h2 : (others.map fun a => a.id).Nodup := (hperm.map _).nodup_iff.2 h1
      exact h2.sublist ((List.take_sublist 3 others).map _)
  refine ⟨?_, (hq.map _).nodup_iff.2 hnodup, ?_, ?_⟩
  · rw [hq.length_eq, List.length_cons, htake]
  · rw [hq.count_eq, List.count_cons_self, List.count_eq_zero_of_not_mem hnotin]
  · intro a ha hne
    have h := hq.mem_iff.1 ha
    rw [List.mem_cons] at h
    rcases h with h | h
    · exact absurd h hne
    · exact hds a h

/-- C1: for a catalog of at least 4 animals with pairwise distinct ids and any
draws, `selectNewChallenge` leaves a target from the catalog and exactly 4
options with pairwise distinct ids; the target is among them exactly once, and
the other three are catalog animals whose id differs from the target's. -/
theorem selectNewChallenge_option_set (host : SpeechHost) (random : Nat → UnitDraw)
    (app : AnimalApp) (h4 : 4 ≤ app.animals.length)
    (hid : (app.animals.map fun a => a.id).Nodup) :
    ∃ target : Animal,
      (selectNewChallenge host random app).app.currentChallengeAnimal = some target ∧
      target ∈ app.animals ∧
      (selectNewChallenge host random app).app.quizOptions.length = 4 ∧
      ((selectNewChallenge host random app).app.quizOptions.map fun a => a.id).Nodup ∧
      (selectNewChallenge host random app).app.quizOptions.count target = 1 ∧
      ((selectNewChallenge host random app).app.quizOptions.filter fun a => a ≠ target).length = 3 ∧
      ∀ a ∈ (selectNewChallenge host random app).app.quizOptions,
        a ≠ target → a ∈ app.animals ∧ a.id ≠ target.id := by
  obtain ⟨target, others, hmem, hperm, hq, hcur, -⟩ :=
    selectNewChallenge_enough host random app h4
  obtain ⟨hlen4, hnodup, hcount, hrest⟩ :=
    options_of_perm app.animals others _ target h4 hid hmem hperm hq
  refine ⟨target, hcur, hmem, hlen4, hnodup, hcount, ?_, hrest⟩
  have hsplit := List.length_eq_countP_add_countP (fun a : Animal => decide (a ≠ target))
    (selectNewChallenge host random app).app.quizOptions
  have hc : (selectNewChallenge host random app).app.quizOptions.countP
      (fun a => ¬ (decide (a ≠ target)) = true) = 1 := by
    rw [← hcount, List.count_eq_countP]
    apply List.countP_congr
    intro a _
    simp
  rw [List.countP_eq_length_filter] at hsplit
  omega

/-- C1 at the four-animal sample catalog. -/
theorem selectNewChallenge_option_set_witness :
    4 ≤ sampleApp.animals.length ∧ (sampleApp.animals.map fun a => a.id).Nodup ∧
    ∃ target : Animal,
      (selectNewChallenge browserOnlyHost halfDraws sampleApp).app.currentChallengeAnimal
        = some target ∧
      target ∈ sampleApp.animals ∧
      (selectNewChallenge browserOnlyHost halfDraws sampleApp).app.quizOptions.length = 4 ∧
      ((selectNewChallenge browserOnlyHost halfDraws sampleApp).app.quizOptions.map
        fun a => a.id).Nodup ∧
      (selectNewChallenge browserOnlyHost halfDraws sampleApp).app.quizOptions.count target = 1 ∧
      ((selectNewChallenge browserOnlyHost halfDraws sampleApp).app.quizOptions.filter
        fun a => a ≠ target).length = 3 ∧
      ∀ a ∈ (selectNewChallenge browserOnlyHost halfDraws sampleApp).app.quizOptions,
        a ≠ target → a ∈ sampleApp.animals ∧ a.id ≠ target.id :=
  ⟨by decide, by decide,
    selectNewChallenge_option_set browserOnlyHost halfDraws sampleApp (by decide) (by decide)⟩

/-- C2: with fewer than 4 animals `selectNewChallenge` only shows the
insufficient-data toast: the application, in particular the target, the
options, the guess lock and the feedback, is unchanged and no speech is
requested. -/
theorem selectNewChallenge_too_few (host : SpeechHost) (random : Nat → UnitDraw)
    (app : AnimalApp) (hfew : app.animals.length < 4) :
    (selectNewChallenge host random app).effects
        = [.toast "Мало данных" "Недостаточно животных для викторины." "destructive"] ∧
      (selectNewChallenge host random app).app = app ∧
      (selectNewChallenge host random app).app.currentChallengeAnimal
        = app.currentChallengeAnimal ∧
      (selectNewChallenge host random app).app.quizOptions = app.quizOptions ∧
      (selectNewChallenge host random app).app.isGuessing = app.isGuessing ∧
      (selectNewChallenge host random app).app.showFeedback = app.showFeedback ∧
      ∀ text lang, Effect.speak text lang ∉ (selectNewChallenge host random app).effects := by
  have hrun : selectNewChallenge host random app
      = ⟨app, [.toast "Мало данных" "Недостаточно животных для викторины." "destructive"]⟩ := by
    simp only [selectNewChallenge, hfew, dite_true]
  rw [hrun]
  refine ⟨rfl, rfl, rfl, rfl, rfl, rfl, ?_⟩
  intro text lang hmem
  simp at hmem

/-- C2 at a catalog of three animals. -/
theorem selectNewChallenge_too_few_witness :
    smallApp.animals.length < 4 ∧
      (selectNewChallenge browserOnlyHost halfDraws smallApp).effects
        = [.toast "Мало данных" "Недостаточно животных для викторины." "destructive"] ∧
      (selectNewChallenge browserOnlyHost halfDraws smallApp).app = smallApp :=
  have h := selectNewChallenge_too_few browserOnlyHost halfDraws smallApp (by decide)
  ⟨by decide, h.1, h.2.1⟩

/-! ## Loading the catalog -/

/-- Loading one id always resolves; it yields an animal exactly for the ids
that produce a record, the animal carries the requested id, and its data is the
file's when the fetch succeeded and the embedded record's otherwise. -/
theorem loadAnimalData_resolves (toUpperCase : String → String)
    (fetch : String → FetchOutcome) (id : String) :
    ∃ o : Option Animal,
      loadAnimalData toUpperCase fetch id = .resolved o ∧
      o.isSome = yieldsRecord fetch id ∧
      ∀ a, o = some a →
        a.id = id ∧
        (∀ data, fetch id = .ok data →
          a.image_url = data.image_url ∧ a.sound_text = data.sound_text) ∧
        ((fetch id).isOk = false → ∃ fb, FALLBACK_ANIMAL_DATA.lookup id = some fb ∧
          a.image_url = fb.image_url ∧ a.sound_text = fb.sound_text) := by
  unfold loadAnimalData yieldsRecord
  cases hf : fetch id with
  | ok data =>
    refine ⟨_, rfl, by simp [FetchOutcome.isOk], ?_⟩
    intro a ha
    cases ha
    refine ⟨rfl, ?_, ?_⟩
    · intro d hd
      cases hd
      exact ⟨rfl, rfl⟩
    · intro h
      simp [FetchOutcome.isOk] at h
  | notOk statusText =>
    cases hl : FALLBACK_ANIMAL_DATA.lookup id with
    | none =>
      refine ⟨none, rfl, by simp [FetchOutcome.isOk], ?_⟩
      intro a ha
      cases ha
    | some fb =>
      refine ⟨_, rfl, by simp [FetchOutcome.isOk], ?_⟩
      intro a ha
      cases ha
      refine ⟨rfl, ?_, fun _ => ⟨fb, rfl, rfl, rfl⟩⟩
      intro d hd
      cases hd
  | failed message =>
    cases hl : FALLBACK_ANIMAL_DATA.lookup id with
    | none =>
      refine ⟨none, rfl, by simp [FetchOutcome.isOk], ?_⟩
      intro a ha
      cases ha
    | some fb =>
      refine ⟨_, rfl, by simp [FetchOutcome.isOk], ?_⟩
      intro a ha
      cases ha
      refine ⟨rfl, ?_, fun _ => ⟨fb, rfl, rfl, rfl⟩⟩
      intro d hd
      cases hd

/-- Joining the loads of a list of ids resolves, and the non-null results are
the records of the ids that produce one, in the order of the list. -/
theorem promiseAll_loads (toUpperCase : String → String) (fetch : String → FetchOutcome)
    (ids : List String) :
    ∃ results : List (Option Animal),
      promiseAll (ids.map (loadAnimalData toUpperCase fetch)) = .resolved results ∧
      (results.filterMap id).map (fun a => a.id) = ids.filter (yieldsRecord fetch) ∧
      ∀ a ∈ results.filterMap id,
        (∀ data, fetch a.id = .ok data →
          a.image_url = data.image_url ∧ a.sound_text = data.sound_text) ∧
        ((fetch a.id).isOk = false → ∃ fb, FALLBACK_ANIMAL_DATA.lookup a.id = some fb ∧
          a.image_url = fb.image_url ∧ a.sound_text = fb.sound_text) := by
  induction ids with
  | nil => exact ⟨[], rfl, rfl, by simp⟩
  | cons i rest ih =>
    obtain ⟨results, hres, hids, hdata⟩ := ih
    obtain ⟨o, ho, hsome, hrec⟩ := loadAnimalData_resolves toUpperCase fetch i
    refine ⟨o :: results, ?_, ?_, ?_⟩
    · simp only [List.map_cons, promiseAll, ho, hres]
    · cases o with
      | none =>
        have hy : yieldsRecord fetch i = false := by simpa using hsome.symm
        simp [List.filter_cons, hy, hids]
      | some a =>
        have hy : yieldsRecord fetch i = true := by simpa using hsome.symm
        have hid := (hrec a rfl).1
        simp [List.filter_cons, hy, hids, hid]
    · intro a ha
      cases o with
      | none => exact hdata a (by simpa using ha)
      | some b =>
        have hmem : a = b ∨ a ∈ results.filterMap id := by simpa using ha
        rcases hmem with hab | hmem
        · subst hab
          have h := hrec a rfl
          rw [h.1]
          exact h.2
        · exact hdata a hmem

/-- C3: whatever each fetch does, `loadAllAnimals` resolves with a catalog whose
ids are `ANIMAL_IDS` restricted to the ids that produce a record (from the file
or the embedded table), in that order and hence without duplicates; an animal
whose fetch failed carries the embedded record's data, and one whose fetch
succeeded carries the file's. -/
theorem loadAllAnimals_order (toUpperCase : String → String)
    (fetch : String → FetchOutcome) :
    ∃ catalog : List Animal,
      loadAllAnimals toUpperCase fetch = .resolved catalog ∧
      catalog.map (fun a => a.id) = ANIMAL_IDS.filter (yieldsRecord fetch) ∧
      (catalog.map fun a => a.id).Nodup ∧
      ∀ a ∈ catalog,
        (∀ data, fetch a.id = .ok data →
          a.image_url = data.image_url ∧ a.sound_text = data.sound_text) ∧
        ((fetch a.id).isOk = false → ∃ fb, FALLBACK_ANIMAL_DATA.lookup a.id = some fb ∧
          a.image_url = fb.image_url ∧ a.sound_text = fb.sound_text) := by
  obtain ⟨results, hres, hids, hdata⟩ := promiseAll_loads toUpperCase fetch ANIMAL_IDS
  refine ⟨results.filterMap id, ?_, hids, ?_, hdata⟩
  · simp only [loadAllAnimals, hres]
  · rw [hids]
    have hnodup : ANIMAL_IDS.Nodup := by decide
    exact hnodup.sublist (List.filter_sublist _)

/-- C4: when every fetch fails, `loadAllAnimals` resolves with one animal per
entry of the embedded table, in table order, each with the entry's key as id and
the entry's `image_url` and `sound_text`; the table has 30 entries with distinct
keys and its keys are exactly `ANIMAL_IDS`, so every id has an embedded record. -/
theorem loadAllAnimals_offline (toUpperCase : String → String)
    (fetch : String → FetchOutcome)
    (hfail : ∀ id ∈ ANIMAL_IDS, (fetch id).isOk = false) :
    loadAllAnimals toUpperCase fetch
        = .resolved (FALLBACK_ANIMAL_DATA.map fun entry =>
            ⟨entry.1, capitalizeFirstLetter toUpperCase entry.1,
              entry.2.image_url, entry.2.sound_text⟩) ∧
      FALLBACK_ANIMAL_DATA.length = 30 ∧
      (FALLBACK_ANIMAL_DATA.map Prod.fst).Nodup ∧
      FALLBACK_ANIMAL_DATA.map Prod.fst = ANIMAL_IDS ∧
      ∀ id ∈ ANIMAL_IDS, (FALLBACK_ANIMAL_DATA.lookup id).isSome = true := by
  refine ⟨?_, by decide, by decide, by decide, by decide⟩
  have hload : ∀ id ∈ ANIMAL_IDS, loadAnimalData toUpperCase fetch id
      = match FALLBACK_ANIMAL_DATA.lookup id with
        | some fb => .resolved (some ⟨id, capitalizeFirstLetter toUpperCase id,
            fb.image_url, fb.sound_text⟩)
        | none => .resolved none := by
    intro id hmem
    have h := hfail id hmem
    unfold loadAnimalData
    cases hf : fetch id with
    | ok data => simp [hf, FetchOutcome.isOk] at h
    | notOk s => rfl
    | failed m => rfl
  unfold loadAllAnimals
  rw [List.map_congr_left hload]
  rfl

/-- C4 on a network where every fetch is rejected. -/
theorem loadAllAnimals_offline_witness :
    (∀ id ∈ ANIMAL_IDS, (offlineFetch id).isOk = false) ∧
      loadAllAnimals id offlineFetch
        = .resolved (FALLBACK_ANIMAL_DATA.map fun entry =>
            ⟨entry.1, capitalizeFirstLetter id entry.1, entry.2.image_url, entry.2.sound_text⟩) :=
  ⟨fun _ _ => rfl, (loadAllAnimals_offline id offlineFetch (fun _ _ => rfl)).1⟩

/-! ## Guessing -/

/-- C5: while the guess lock is set, or while there is no target,
`handleAnimalGuess` does nothing: the application (target, options, lock and
feedback included) is unchanged and no effect is requested, so no speech and
no delayed transition. -/
theorem handleAnimalGuess_ignored (host : SpeechHost) (guessedAnimal : Animal)
    (app : AnimalApp) (hlocked : app.isGuessing = true ∨ app.currentChallengeAnimal = none) :
    handleAnimalGuess host guessedAnimal app = ⟨app, []⟩ ∧
      (handleAnimalGuess host guessedAnimal app).app.currentChallengeAnimal
        = app.currentChallengeAnimal ∧
      (handleAnimalGuess host guessedAnimal app).app.quizOptions = app.quizOptions ∧
      (handleAnimalGuess host guessedAnimal app).app.isGuessing = app.isGuessing ∧
      (handleAnimalGuess host guessedAnimal app).app.showFeedback = app.showFeedback ∧
      (∀ text lang, Effect.speak text lang ∉ (handleAnimalGuess host guessedAnimal app).effects) ∧
      ∀ timer delay,
        Effect.setTimeout timer delay ∉ (handleAnimalGuess host guessedAnimal app).effects := by
  have hrun : handleAnimalGuess host guessedAnimal app = ⟨app, []⟩ := by
    unfold handleAnimalGuess
    cases hcur : app.currentChallengeAnimal with
    | none => rfl
    | some target =>
      rcases hlocked with hg | hn
      · simp [hg]
      · rw [hcur] at hn
        cases hn
  rw [hrun]
  exact ⟨rfl, rfl, rfl, rfl, rfl, fun _ _ h => by simp at h, fun _ _ h => by simp at h⟩

/-- C5 on a locked challenge. -/
theorem handleAnimalGuess_ignored_witness :
    (lockedApp.isGuessing = true ∨ lockedApp.currentChallengeAnimal = none) ∧
      handleAnimalGuess browserOnlyHost dog lockedApp = ⟨lockedApp, []⟩ :=
  ⟨Or.inl rfl, (handleAnimalGuess_ignored browserOnlyHost dog lockedApp (Or.inl rfl)).1⟩

/-- What `handleAnimalGuess` does on a challenge that awaits a guess. -/
theorem handleAnimalGuess_open (host : SpeechHost) (guessedAnimal target : Animal)
    (app : AnimalApp) (hcur : app.currentChallengeAnimal = some target)
    (hopen : app.isGuessing = false) :
    ∃ toasts : List Effect,
      (toasts = [] ∨ toasts = [.toast "Ошибка TTS" "Не удалось воспроизвести звук" "destructive"]) ∧
      handleAnimalGuess host guessedAnimal app =
        ⟨{ app with isGuessing := true,
                    showFeedback := some (if guessedAnimal.id = target.id
                      then Feedback.correct else Feedback.incorrect) },
         .speak (if guessedAnimal.id = target.id then "Молодец!!!" else "Попробуй ещё")
              defaultLang :: toasts
           ++ [.setTimeout ⟨decide (guessedAnimal.id = target.id)⟩ 1500]⟩ := by
  unfold handleAnimalGuess
  simp only [hcur, hopen]
  cases (speak host (if decide (guessedAnimal.id = target.id) = true then "Молодец!!!"
      else "Попробуй ещё") defaultLang).result with
  | resolved v => exact ⟨[], Or.inl rfl, by simp⟩
  | rejected m => exact ⟨_, Or.inr rfl, by simp⟩

/-- C6: the claim fails on the code at the timer.  On the sample challenge
(target cow) guessing the dog sets the feedback to incorrect, locks guessing,
speaks the retry phrase and schedules the 1500 ms timer for a wrong guess, as
claimed; but the branch of the timer callback that was to clear the feedback,
reopen guessing and replay the prompt is not a statement of the language
(`await` outside an async function), so when the timer fires nothing of it
happens, for any speech host and any draws. -/
theorem handleAnimalGuess_incorrect_no_replay :
    (handleAnimalGuess browserOnlyHost dog challengeApp).app.showFeedback = some .incorrect ∧
      (handleAnimalGuess browserOnlyHost dog challengeApp).app.isGuessing = true ∧
      (handleAnimalGuess browserOnlyHost dog challengeApp).app.currentChallengeAnimal
        = some cow ∧
      (handleAnimalGuess browserOnlyHost dog challengeApp).effects
        = [.speak "Попробуй ещё" defaultLang, .setTimeout ⟨false⟩ 1500] ∧
      ∀ (host : SpeechHost) (random : Nat → UnitDraw),
        fireGuessTimer host random ⟨false⟩
          (handleAnimalGuess browserOnlyHost dog challengeApp).app = none := by
  refine ⟨by decide, by decide, by decide, by decide, ?_⟩
  intro host random
  rfl

/-- C7: on a challenge that awaits a guess, over a catalog of at least 4 animals
with distinct ids, guessing the animal with the target's id sets the feedback
to correct, locks guessing, speaks the affirmation and schedules the 1500 ms
timer; when that timer fires the callback runs and a new challenge is in place:
a target from the catalog among 4 options with distinct ids, feedback cleared,
guessing open. -/
theorem handleAnimalGuess_correct (hostGuess hostTimer : SpeechHost)
    (random : Nat → UnitDraw) (guessedAnimal target : Animal) (app : AnimalApp)
    (hcur : app.currentChallengeAnimal = some target) (hopen : app.isGuessing = false)
    (hright : guessedAnimal.id = target.id) (h4 : 4 ≤ app.animals.length)
    (hid : (app.animals.map fun a => a.id).Nodup) :
    (handleAnimalGuess hostGuess guessedAnimal app).app.showFeedback = some .correct ∧
      (handleAnimalGuess hostGuess guessedAnimal app).app.isGuessing = true ∧
      (handleAnimalGuess hostGuess guessedAnimal app).effects.head?
        = some (.speak "Молодец!!!" defaultLang) ∧
      (handleAnimalGuess hostGuess guessedAnimal app).effects.getLast?
        = some (.setTimeout ⟨true⟩ 1500) ∧
      (∀ timer delay,
        Effect.setTimeout timer delay ∈ (handleAnimalGuess hostGuess guessedAnimal app).effects →
          timer = ⟨true⟩ ∧ delay = 1500) ∧
      ∃ (next : Animal) (fired : Run),
        fireGuessTimer hostTimer random ⟨true⟩
          (handleAnimalGuess hostGuess guessedAnimal app).app = some fired ∧
        next ∈ app.animals ∧
        fired.app.currentChallengeAnimal = some next ∧
        fired.app.quizOptions.length = 4 ∧
        (fired.app.quizOptions.map fun a => a.id).Nodup ∧
        fired.app.quizOptions.count next = 1 ∧
        (∀ a ∈ fired.app.quizOptions, a ≠ next → a ∈ app.animals ∧ a.id ≠ next.id) ∧
        fired.app.showFeedback = none ∧
        fired.app.isGuessing = false ∧
        fired.effects.head?
          = some (.speak (next.sound_text ++ " " ++ next.name) defaultLang) := by
  obtain ⟨toasts, htoasts, hrun⟩ := handleAnimalGuess_open hostGuess guessedAnimal target app hcur hopen
  rw [hrun]
  simp only [if_pos hright, decide_eq_true hright]
  refine ⟨?_, ?_, ?_, ?_, ?_, ?_⟩
  · trivial
  · trivial
  · rfl
  · rcases htoasts with h | h <;> subst h <;> rfl
  · intro timer delay hmem
    rcases htoasts with h | h <;> subst h <;> simp at hmem <;> simp [hmem]
  · obtain ⟨next, others, hmem, hperm, hq, hnext, hguess, hfb, -, -, heff⟩ :=
      selectNewChallenge_enough hostTimer random
        { app with isGuessing := true, showFeedback := some Feedback.correct } h4
    obtain ⟨hlen4, hnodup, hcount, hrest⟩ :=
      options_of_perm app.animals others _ next h4 hid hmem hperm hq
    refine ⟨next, _, rfl, hmem, hnext, hlen4, hnodup, hcount, hrest, hfb, hguess, ?_⟩
    rw [heff]
    rfl

/-- C7 on the sample challenge: the target is the cow and the cow is guessed. -/
theorem handleAnimalGuess_correct_witness :
    challengeApp.currentChallengeAnimal = some cow ∧ challengeApp.isGuessing = false ∧
      cow.id = cow.id ∧ 4 ≤ challengeApp.animals.length ∧
      (challengeApp.animals.map fun a => a.id).Nodup ∧
      (handleAnimalGuess browserOnlyHost cow challengeApp).app.showFeedback = some .correct ∧
      (handleAnimalGuess browserOnlyHost cow challengeApp).app.isGuessing = true :=
  have h := handleAnimalGuess_correct browserOnlyHost browserOnlyHost halfDraws cow cow
    challengeApp rfl rfl rfl (by decide) (by decide)
  ⟨rfl, rfl, rfl, by decide, by decide, h.1, h.2.1⟩

/-! ## Speech -/

/-- C8: on the route taken when the native engine fails, a browser-reported
"interrupted" error rejects the `speak` promise with that message, for every
text and locale, while on the route taken without a native engine the same
event resolves it; other browser errors reject on both routes. -/
theorem speak_interrupted_after_native_failure (text lang : String)
    (message : Option String) (native : NativeOutcome) :
    (speak ⟨true, true, .failed message, .onerror (some "interrupted")⟩ text lang).result
        = .rejected "interrupted" ∧
      (speak ⟨true, true, .failed message, .onerror (some "interrupted")⟩ text lang).calls
        = [.ttsSpeak text lang 75, .synthCancel, .synthSpeak text lang] ∧
      (speak ⟨false, true, native, .onerror (some "interrupted")⟩ text lang).result
        = .resolved () ∧
      (speak ⟨false, true, native, .onerror (some "network")⟩ text lang).result
        = .rejected "network" ∧
      (speak ⟨true, true, .failed message, .onerror (some "network")⟩ text lang).result
        = .rejected "network" := by
  refine ⟨?_, ?_, ?_, ?_, ?_⟩ <;> simp [speak, jsOr]

/-- C9: without any speech engine every `speak` call rejects with
`TTS_NOT_SUPPORTED` and asks no engine for anything, and `selectNewChallenge` on
a catalog of at least 4 animals still finishes with a target in place among the
options and guessing open, having requested the prompt and reported the
rejection in a toast. -/
theorem speak_unsupported (host : SpeechHost) (random : Nat → UnitDraw) (app : AnimalApp)
    (hnative : host.hasTTS = false) (hbrowser : host.hasSpeechSynthesis = false)
    (h4 : 4 ≤ app.animals.length) :
    (∀ text lang, speak host text lang = ⟨[], .rejected "TTS_NOT_SUPPORTED"⟩) ∧
      ∃ target : Animal,
        target ∈ app.animals ∧
        (selectNewChallenge host random app).app.currentChallengeAnimal = some target ∧
        target ∈ (selectNewChallenge host random app).app.quizOptions ∧
        (selectNewChallenge host random app).app.isGuessing = false ∧
        (selectNewChallenge host random app).app.showFeedback = none ∧
        (selectNewChallenge host random app).effects
          = [.speak (target.sound_text ++ " " ++ target.name) defaultLang,
             .toast "Ошибка TTS" "Ваш браузер не поддерживает синтез речи." "destructive"] := by
  have hspeak : ∀ text lang, speak host text lang = ⟨[], .rejected "TTS_NOT_SUPPORTED"⟩ := by
    intro text lang
    simp [speak, hnative, hbrowser]
  obtain ⟨target, others, hmem, -, hq, hcur, hguess, hfb, -, -, heff⟩ :=
    selectNewChallenge_enough host random app h4
  refine ⟨hspeak, target, hmem, hcur, hq.mem_iff.2 (List.mem_cons_self _ _), hguess, hfb, ?_⟩
  rw [heff]
  simp [playSoundAndName, hspeak]

/-- C9 on the sample catalog with no engine present. -/
theorem speak_unsupported_witness :
    silentHost.hasTTS = false ∧ silentHost.hasSpeechSynthesis = false ∧
      4 ≤ sampleApp.animals.length ∧
      (∀ text lang, speak silentHost text lang = ⟨[], .rejected "TTS_NOT_SUPPORTED"⟩) ∧
      (selectNewChallenge silentHost halfDraws sampleApp).app.isGuessing = false :=
  have h := speak_unsupported silentHost halfDraws sampleApp rfl rfl (by decide)
  ⟨rfl, rfl, by decide, h.1, by
    obtain ⟨_, _, _, _, hguess, _⟩ := h.2
    exact hguess⟩

/-- C10, the claim refuted: with the plugin present and its language check
failing, `getTTSInfo` resolves with `available: true`; and when evaluating the
language check throws inside the executor, the promise rejects. -/
theorem getTTSInfo_check_failed_available :
    getTTSInfo true (.failed (some "ERR_NOT_INITIALIZED"))
        = .resolved ⟨true, "cordova", none, ["ru-RU", "en-US"]⟩ ∧
      (¬ ∃ info : TTSInfo,
          getTTSInfo true (.failed (some "ERR_NOT_INITIALIZED")) = .resolved info ∧
          info.available = false) ∧
      getTTSInfo true (.threw "TTS.checkLanguage is not a function")
        = .rejected "TTS.checkLanguage is not a function" := by
  refine ⟨rfl, ?_, rfl⟩
  rintro ⟨info, hinfo, havail⟩
  simp only [getTTSInfo] at hinfo
  cases hinfo
  cases havail

/-- C10 amended: when the plugin is absent, or its language check returns a
promise, `getTTSInfo` resolves; `available` is then false exactly when the
plugin is absent (the plugin is reported as none with no languages, whatever
the language check would do), and with the plugin present it is true, also when
the language check's promise rejects, in which case no current language is
reported. -/
theorem getTTSInfo_resolves (hasTTS : Bool) (check : LanguageCheck)
    (hpromise : check.returnsPromise = true) (message : Option String) (current : String) :
    (∃ info : TTSInfo, getTTSInfo hasTTS check = .resolved info ∧ info.available = hasTTS) ∧
      (∀ anyCheck, getTTSInfo false anyCheck = .resolved ⟨false, "none", none, []⟩) ∧
      getTTSInfo true (.failed message)
        = .resolved ⟨true, "cordova", none, ["ru-RU", "en-US"]⟩ ∧
      getTTSInfo true (.language current)
        = .resolved ⟨true, "cordova", some current, ["ru-RU", "en-US"]⟩ := by
  refine ⟨?_, fun _ => rfl, rfl, rfl⟩
  cases hasTTS with
  | false => exact ⟨_, rfl, rfl⟩
  | true =>
    cases check with
    | language c => exact ⟨_, rfl, rfl⟩
    | failed m => exact ⟨_, rfl, rfl⟩
    | threw m => simp [LanguageCheck.returnsPromise] at hpromise

/-- C10 amended, with the plugin present and a language check whose promise
rejects without a message. -/
theorem getTTSInfo_resolves_witness :
    (LanguageCheck.failed none).returnsPromise = true ∧
      ∃ info : TTSInfo,
        getTTSInfo true (.failed none) = .resolved info ∧ info.available = true :=
  ⟨rfl, (getTTSInfo_resolves true (.failed none) rfl none "ru-RU").1⟩

/-! ## Leaving the quiz -/

/-- The handlers of the quiz do not look at `currentView`. -/
theorem handlers_ignore_view (host : SpeechHost) (random : Nat → UnitDraw)
    (view : View) (app : AnimalApp) :
    (∀ guessedAnimal,
        handleAnimalGuess host guessedAnimal { app with currentView := view }
          = ⟨{ (handleAnimalGuess host guessedAnimal app).app with currentView := view },
              (handleAnimalGuess host guessedAnimal app).effects⟩) ∧
      repeatSound host { app with currentView := view } = repeatSound host app ∧
      selectNewChallenge host random { app with currentView := view }
        = ⟨{ (selectNewChallenge host random app).app with currentView := view },
            (selectNewChallenge host random app).effects⟩ := by
  refine ⟨?_, rfl, ?_⟩
  · intro guessedAnimal
    obtain ⟨v, animals, loading, current, options, guessing, feedback⟩ := app
    cases current with
    | none => rfl
    | some target =>
      cases guessing with
      | true => rfl
      | false => rfl
  · unfold selectNewChallenge
    by_cases hfew : app.animals.length < 4
    · simp only [hfew, dite_true]
    · simp only [hfew, dite_false]

/-- C11, the claim refuted: leaving for the selection view after a correct
guess keeps the target, the options, the lock and the feedback, and the
pending timer of that guess then still generates and speaks a new challenge
while the selection view is shown. -/
theorem showLevelSelection_keeps_challenge :
    (showLevelSelection false praisedApp).app.currentView = .levels ∧
      (showLevelSelection false praisedApp).app.currentChallengeAnimal = some cow ∧
      (showLevelSelection false praisedApp).app.quizOptions = sampleCatalog ∧
      (showLevelSelection false praisedApp).app.isGuessing = true ∧
      (showLevelSelection false praisedApp).app.showFeedback = some .correct ∧
      ¬ ((showLevelSelection false praisedApp).app.currentChallengeAnimal = none ∧
          (showLevelSelection false praisedApp).app.quizOptions = [] ∧
          (showLevelSelection false praisedApp).app.isGuessing = false ∧
          (showLevelSelection false praisedApp).app.showFeedback = none) ∧
      ∃ fired : Run,
        fireGuessTimer browserOnlyHost halfDraws ⟨true⟩
          (showLevelSelection false praisedApp).app = some fired ∧
        fired.app.currentView = .levels ∧
        fired.app.currentChallengeAnimal.isSome = true ∧
        fired.effects = [.speak "мяу-мяу Кошка" defaultLang] := by
  refine ⟨rfl, rfl, rfl, rfl, rfl, ?_, _, rfl, by decide, by decide, by decide⟩
  rintro ⟨h, -⟩
  cases h

/-- C11 amended: for every application `showLevelSelection` switches to the
selection view and leaves the challenge as it was: target, options, guess lock
and feedback are unchanged (it only asks to leave fullscreen when the page is
in it).  A later guess or repeat, and the pending timer of a correct guess, act
on the retained challenge exactly as in the quiz view, the view staying the
selection view; when the catalog has at least 4 animals the challenge is
replaced once the quiz view is entered again through `showLevel2`. -/
theorem showLevelSelection_view_only (isFullscreen : Bool) (host : SpeechHost)
    (random : Nat → UnitDraw) (app : AnimalApp) :
    (showLevelSelection isFullscreen app).app = { app with currentView := .levels } ∧
      (showLevelSelection isFullscreen app).app.currentView = .levels ∧
      (showLevelSelection isFullscreen app).app.currentChallengeAnimal
        = app.currentChallengeAnimal ∧
      (showLevelSelection isFullscreen app).app.quizOptions = app.quizOptions ∧
      (showLevelSelection isFullscreen app).app.isGuessing = app.isGuessing ∧
      (showLevelSelection isFullscreen app).app.showFeedback = app.showFeedback ∧
      (showLevelSelection isFullscreen app).effects
        = (if isFullscreen then [.toggleFullscreen] else []) ∧
      (∀ guessedAnimal,
        handleAnimalGuess host guessedAnimal (showLevelSelection isFullscreen app).app
          = ⟨{ (handleAnimalGuess host guessedAnimal app).app with currentView := .levels },
              (handleAnimalGuess host guessedAnimal app).effects⟩) ∧
      repeatSound host (showLevelSelection isFullscreen app).app = repeatSound host app ∧
      fireGuessTimer host random ⟨true⟩ (showLevelSelection isFullscreen app).app
        = some ⟨{ (selectNewChallenge host random app).app with currentView := .levels },
            (selectNewChallenge host random app).effects⟩ ∧
      (4 ≤ app.animals.length →
        ∃ target : Animal,
          target ∈ app.animals ∧
          (showLevel2 host random (showLevelSelection isFullscreen app).app).app.currentView
            = .level2 ∧
          (showLevel2 host random
            (showLevelSelection isFullscreen app).app).app.currentChallengeAnimal
            = some target ∧
          (showLevel2 host random (showLevelSelection isFullscreen app).app).app.isGuessing
            = false ∧
          (showLevel2 host random (showLevelSelection isFullscreen app).app).app.showFeedback
            = none) := by
  obtain ⟨hguess, hrepeat, hsel⟩ := handlers_ignore_view host random .levels app
  refine ⟨rfl, rfl, rfl, rfl, rfl, rfl, rfl, hguess, hrepeat, ?_, ?_⟩
  · exact congrArg some hsel
  · intro h4
    obtain ⟨target, -, hmem, -, -, hcur, hopen, hfb, -, hview, -⟩ :=
      selectNewChallenge_enough host random
        { (showLevelSelection isFullscreen app).app with currentView := .level2 } h4
    exact ⟨target, hmem, hview, hcur, hopen, hfb⟩

/-- C11 amended, on the sample challenge with a locked guess, in fullscreen. -/
theorem showLevelSelection_view_only_witness :
    (showLevelSelection true lockedApp).app = { lockedApp with currentView := .levels } ∧
      (showLevelSelection true lockedApp).effects = [.toggleFullscreen] ∧
      4 ≤ lockedApp.animals.length ∧
      ∃ target : Animal,
        target ∈ lockedApp.animals ∧
        (showLevel2 browserOnlyHost halfDraws
          (showLevelSelection true lockedApp).app).app.currentView = .level2 ∧
        (showLevel2 browserOnlyHost halfDraws
          (showLevelSelection true lockedApp).app).app.currentChallengeAnimal = some target ∧
        (showLevel2 browserOnlyHost halfDraws
          (showLevelSelection true lockedApp).app).app.isGuessing = false ∧
        (showLevel2 browserOnlyHost halfDraws
          (showLevelSelection true lockedApp).app).app.showFeedback = none :=
  have h := showLevelSelection_view_only true browserOnlyHost halfDraws lockedApp
  ⟨h.1, h.2.2.2.2.2.2.1, by decide, h.2.2.2.2.2.2.2.2.2.2 (by decide)⟩

/-! ## Shuffling stays inside the array and copies its input -/

theorem swapAt_length {α : Type} (a : List α) (i j : Nat) : (swapAt a i j).length = a.length :=
  (swapAt_perm a i j).length_eq

/-- The loop performs the swaps of `shuffleSwaps`, one after the other. -/
theorem shuffleLoop_eq_foldl {α : Type} (random : Nat → UnitDraw) (i k : Nat) (a : List α) :
    shuffleLoop random i k a
      = (shuffleSwaps random i k).foldl (fun acc p => swapAt acc p.1 p.2) a := by
  induction i generalizing k a with
  | zero => rfl
  | succ i ih =>
    simp only [shuffleLoop, shuffleSwaps, List.foldl_cons]
    exact ih _ _

theorem foldl_swapAt_length {α : Type} (swaps : List (Nat × Nat)) (a : List α) :
    (swaps.foldl (fun acc p => swapAt acc p.1 p.2) a).length = a.length := by
  induction swaps generalizing a with
  | nil => rfl
  | cons p rest ih =>
    rw [List.foldl_cons, ih, swapAt_length]

/-- Every swap of the loop entered at `i` has `1 ≤ i' ≤ i` and `j ≤ i'`. -/
theorem shuffleSwaps_bounds (random : Nat → UnitDraw) (i k : Nat) :
    ∀ p ∈ shuffleSwaps random i k, 1 ≤ p.1 ∧ p.1 ≤ i ∧ p.2 ≤ p.1 := by
  induction i generalizing k with
  | zero =>
    intro p hp
    simp [shuffleSwaps] at hp
  | succ i ih =>
    intro p hp
    simp only [shuffleSwaps, List.mem_cons] at hp
    rcases hp with hp | hp
    · subst hp
      have hlt := randomBelow_lt (random k) (i + 1 + 1) (by omega)
      exact ⟨by simp, Nat.le_refl _, by simp only; omega⟩
    · obtain ⟨h1, h2, h3⟩ := ih (k + 1) p hp
      exact ⟨h1, by omega, h3⟩

/-- On a memory, the loop rewrites the array at `shuffled` and nothing else. -/
theorem shuffleLoopIn_eq {α : Type} (random : Nat → UnitDraw) (shuffled i k : Nat)
    (heap : List (List α)) (contents : List α) (hat : heap[shuffled]? = some contents) :
    shuffleLoopIn random shuffled i k heap
      = heap.set shuffled (shuffleLoop random i k contents) := by
  obtain ⟨hlt, hget⟩ := List.getElem?_eq_some.1 hat
  induction i generalizing k heap contents with
  | zero =>
    simp only [shuffleLoopIn, shuffleLoop]
    apply List.ext_getElem?
    intro n
    by_cases hn : shuffled = n
    · subst hn
      simp [hat, hlt]
    · simp [List.getElem?_set_ne hn]
  | succ i ih =>
    simp only [shuffleLoopIn, shuffleLoop, hat]
    have hlt2 : shuffled < (heap.set shuffled
        (swapAt contents (i + 1) (randomBelow (random k) (i + 1 + 1)))).length := by
      simpa using hlt
    rw [ih (k + 1) _ (swapAt contents (i + 1) (randomBelow (random k) (i + 1 + 1)))
      (by simp [hlt]) hlt2 (by simp), List.set_set]

/-- On a memory, `shuffleArray` returns a fresh reference holding the shuffled
copy and leaves every array that was there before as it was. -/
theorem shuffleArrayIn_fresh {α : Type} (random : Nat → UnitDraw) (k : Nat)
    (heap : List (List α)) (array : Fin heap.length) :
    (shuffleArrayIn random k heap array).2 = heap.length ∧
      (shuffleArrayIn random k heap array).1
        = heap ++ [shuffleArray random k (heap.get array)] := by
  have hat : (heap ++ [heap.get array])[heap.length]? = some (heap.get array) := by simp
  refine ⟨rfl, ?_⟩
  simp only [shuffleArrayIn]
  rw [shuffleLoopIn_eq random heap.length _ k _ _ hat]
  simp [shuffleArray]

/-- C12: for every array and every draws `shuffleArray` returns a permutation of
its input (same length, every element as often as before); its swaps are those
of `shuffleSwaps`, each with `j ≤ i` and `i` inside the array as it is at that
moment; and on a memory of arrays the result is a new array, while the input
array and every other array keep their contents. -/
theorem shuffleArray_permutation {α : Type} [DecidableEq α] (random : Nat → UnitDraw)
    (k : Nat) (array : List α) (heap : List (List α)) (input : Fin heap.length) :
    (shuffleArray random k array).Perm array ∧
      (shuffleArray random k array).length = array.length ∧
      (∀ x, (shuffleArray random k array).count x = array.count x) ∧
      shuffleArray random k array
        = (shuffleSwaps random (array.length - 1) k).foldl
            (fun acc p => swapAt acc p.1 p.2) array ∧
      (∀ n p, (shuffleSwaps random (array.length - 1) k)[n]? = some p →
        p.2 ≤ p.1 ∧
        p.1 < (((shuffleSwaps random (array.length - 1) k).take n).foldl
          (fun acc p => swapAt acc p.1 p.2) array).length) ∧
      (shuffleArrayIn random k heap input).2 ≠ input.val ∧
      (shuffleArrayIn random k heap input).1[(shuffleArrayIn random k heap input).2]?
        = some (shuffleArray random k (heap.get input)) ∧
      (shuffleArrayIn random k heap input).1[input.val]? = some (heap.get input) ∧
      ∀ r, r < heap.length → (shuffleArrayIn random k heap input).1[r]? = heap[r]? := by
  have hperm := shuffleArray_perm random k array
  obtain ⟨href, hheap⟩ := shuffleArrayIn_fresh random k heap input
  have hold : ∀ r, r < heap.length →
      (shuffleArrayIn random k heap input).1[r]? = heap[r]? := by
    intro r hr
    rw [hheap, List.getElem?_append_left hr]
  refine ⟨hperm, hperm.length_eq, fun x => hperm.count_eq x,
    shuffleLoop_eq_foldl random _ k array, ?_, ?_, ?_, ?_, hold⟩
  · intro n p hp
    obtain ⟨h1, h2, h3⟩ := shuffleSwaps_bounds random (array.length - 1) k p
      (List.getElem?_mem hp)
    rw [foldl_swapAt_length]
    exact ⟨h3, by omega⟩
  · rw [href]
    exact Nat.ne_of_gt input.isLt
  · rw [href, hheap]
    simp
  · rw [hold input.val input.isLt]
    simp

/-- C12 on the array 10, 20, 30, 40 with all draws one half: the swaps are
(3, 2), (2, 1), (1, 1), and the shuffled copy is stored after the two arrays of
the sample memory. -/
theorem shuffleArray_permutation_witness :
    shuffleArray halfDraws 0 [10, 20, 30, 40] = [10, 40, 20, 30] ∧
      shuffleSwaps halfDraws 3 0 = [(3, 2), (2, 1), (1, 1)] ∧
      shuffleArrayIn halfDraws 0 sampleHeap ⟨0, by decide⟩
        = ([[10, 20, 30, 40], [7], [10, 40, 20, 30]], 2) ∧
      (shuffleArray halfDraws 0 [10, 20, 30, 40]).Perm [10, 20, 30, 40] :=
  ⟨by decide, by decide, by decide,
    (shuffleArray_permutation halfDraws 0 [10, 20, 30, 40] sampleHeap ⟨0, by decide⟩).1⟩

end TalkingAnimals
